import Mathlib

/-!
Verification of the recipe-matching / macro-computation core of `chefskiss`
(`src/chefskiss/agent.py`): the two tool functions `find_recipies` and
`calculate_recipe_macros`.

Modelling notes.
* The two catalogs `RECIPES_DB` and `MACROS_DB` are JSON data loaded at
  startup (not part of the source tree), so every definition is
  parametrised by them: a recipe catalog is a `List Recipe`, the nutrient
  table a `List (String × NutrientEntry)` (a Python dict as an association
  list, first binding wins, keys unique in practice).
* Python dict `.get` is modelled with `Option`; direct indexing that can
  raise `KeyError`, and `str.lower` on a non-string raising
  `AttributeError`, are modelled with `Option`/`Except` error results.
* Python numbers (ingredient weights, per-100g macro values) are modelled
  as exact rationals `ℚ`; `round(x, 1)` is modelled as round-half-to-even
  at one decimal on `ℚ` (the spec accepts half-to-even or half-up; binary
  floating-point rounding artifacts are not modelled).
* `str.lower` is modelled as character-wise `Char.toLower`.
-/

/-- Python `str.lower`, modelled character-wise. -/
def pyLower (s : String) : String :=
  ⟨s.data.map Char.toLower⟩

/-- One entry of a recipe's `ingredients` list: a JSON object whose
`"name"` and `"weight_grams"` keys may be absent (the code reads them with
`.get`). -/
structure Ingredient where
  name : Option String
  weight_grams : Option ℚ
deriving DecidableEq, Repr

/-- One entry of `RECIPES_DB`: the `"name"` key may be absent (the code
reads it with `.get("name", "")` in `calculate_recipe_macros`);
`"ingredients"` is always indexed directly, so it is a mandatory field. -/
structure Recipe where
  name : Option String
  ingredients : List Ingredient
deriving DecidableEq, Repr

/-- A per-100g nutrient record of `MACROS_DB`: a Python dict from macro
name to number, kept as an association list so that a present-but-empty
dict (falsy in Python) is distinguishable from an absent entry. -/
def NutrientEntry : Type := List (String × ℚ)

instance : DecidableEq NutrientEntry := by
  unfold NutrientEntry
  infer_instance

/-- The four running totals of `calculate_recipe_macros`. -/
@[ext]
structure Macros where
  protein : ℚ
  carbs : ℚ
  fat : ℚ
  calories : ℚ
deriving DecidableEq, Repr

/-- The lowercased required-ingredient names of a recipe, in order:
`ingredient["name"].lower() for ingredient in recipe["ingredients"]`.
`none` models the `KeyError` raised when an ingredient object has no
`"name"` key. -/
def lowered_req_names : List Ingredient → Option (List String)
  | [] => some []
  | i :: rest =>
    match i.name with
    | none => none
    | some n => (lowered_req_names rest).map (fun ns => pyLower n :: ns)

/-- `required_set`: the Python `set(...)` of lowered required names,
modelled as a deduplicated list. -/
def required_set (r : Recipe) : Option (List String) :=
  (lowered_req_names r.ingredients).map List.dedup

/-- The loop body of `find_recipies` over the catalog, given the already
lowered available-ingredient set (`availSet`).  For each recipe the set of
required names minus the available set is computed; the recipe's `"name"`
is only read (and can only raise `KeyError`) when the recipe matches,
exactly as in the source. -/
def find_core : List Recipe → List String → ℤ → Option (List String)
  | [], _, _ => some []
  | r :: rest, availSet, max_missing =>
    match required_set r with
    | none => none
    | some req =>
      let missing := req.filter fun n => decide (n ∉ availSet)
      if (missing.length : ℤ) ≤ max_missing then
        match r.name with
        | none => none
        | some nm => (find_core rest availSet max_missing).map (fun l => nm :: l)
      else
        find_core rest availSet max_missing

/-- `find_recipies(available_ingredients, max_missing)` from
`src/chefskiss/agent.py`, parametrised by the catalog `db`.
`available_set = set(ingredient.lower() for ingredient in available_ingredients)`
is the lowered input list. -/
def find_recipies (db : List Recipe) (available_ingredients : List String)
    (max_missing : ℤ) : Option (List String) :=
  find_core db (available_ingredients.map pyLower) max_missing

/-- `macros_per_100g.get(macro, 0)`: dict lookup with default `0`. -/
def entry_get (e : NutrientEntry) (key : String) : ℚ :=
  (List.lookup key e).getD 0

/-- Auxiliary for reasoning: the all-zero totals record. -/
def zeroMacros : Macros := ⟨0, 0, 0, 0⟩

/-- Componentwise addition of totals. -/
def macroAdd (a b : Macros) : Macros :=
  ⟨a.protein + b.protein, a.carbs + b.carbs, a.fat + b.fat,
   a.calories + b.calories⟩

/-- The body of the per-ingredient loop of `calculate_recipe_macros`:
skip when the name is missing/empty or the weight is missing/zero (falsy),
skip when the nutrient lookup misses or returns a falsy (empty) dict,
otherwise add `macros_per_100g.get(macro, 0) * (weight_grams / 100.0)` to
each of the four running totals. -/
def macro_step (mdb : List (String × NutrientEntry)) (acc : Macros)
    (i : Ingredient) : Macros :=
  match i.name, i.weight_grams with
  | some n, some w =>
    if n = "" ∨ w = 0 then acc
    else
      match List.lookup (pyLower n) mdb with
      | none => acc
      | some e =>
        if e = ([] : NutrientEntry) then acc
        else
          let scale_factor := w / 100
          macroAdd acc
            ⟨entry_get e "protein" * scale_factor,
             entry_get e "carbs" * scale_factor,
             entry_get e "fat" * scale_factor,
             entry_get e "calories" * scale_factor⟩
  | _, _ => acc

/-- Round-half-to-even to an integer (Python `round` on an exact value). -/
def round_half_even (q : ℚ) : ℤ :=
  let f : ℤ := ⌊q⌋
  if q - f < 1 / 2 then f
  else if q - f > 1 / 2 then f + 1
  else if f % 2 = 0 then f else f + 1

/-- Python `round(value, 1)`: round to one decimal place. -/
def round1 (q : ℚ) : ℚ :=
  (round_half_even (q * 10) : ℚ) / 10

/-- `calculate_recipe_macros(recipe)` from `src/chefskiss/agent.py`,
parametrised by the recipe catalog `db` and the nutrient table `mdb`.
`next((r for r in RECIPES_DB if r.get("name", "").lower() == recipe.lower()), None)`
is `List.find?`; `none` is the Python `None` returned when the recipe is
not found. -/
def calculate_recipe_macros (db : List Recipe)
    (mdb : List (String × NutrientEntry)) (recipe : String) : Option Macros :=
  match db.find? (fun r => pyLower (r.name.getD "") == pyLower recipe) with
  | none => none
  | some target_recipe_data =>
    let total_macros := target_recipe_data.ingredients.foldl (macro_step mdb) zeroMacros
    some ⟨round1 total_macros.protein, round1 total_macros.carbs,
          round1 total_macros.fat, round1 total_macros.calories⟩

/-! ### Dynamic input layer

`find_recipies` is annotated `list[str]`, but the spec claims malformed
lists with wrong element types degrade gracefully.  Python raises
`AttributeError` when `.lower()` is called on a non-string, so the input
elements are modelled as dynamic Python values and the lowering as a
fallible operation. -/

/-- A dynamic Python value, as far as these inputs need. -/
inductive PyVal where
  | str : String → PyVal
  | int : Int → PyVal
  | none : PyVal
deriving DecidableEq, Repr

/-- A Python exception escaping the two functions. -/
inductive PyErr where
  | attributeError
  | keyError
deriving DecidableEq, Repr

/-- `ingredient.lower()` on a dynamic value: only strings have `.lower`. -/
def pyLowerDyn : PyVal → Except PyErr String
  | PyVal.str s => Except.ok (pyLower s)
  | _ => Except.error PyErr.attributeError

/-- `set(ingredient.lower() for ingredient in available_ingredients)` on a
dynamic list: lowering each element left to right, raising
`AttributeError` at the first non-string element. -/
def lowered_avail_dyn : List PyVal → Except PyErr (List String)
  | [] => Except.ok []
  | v :: rest =>
    match pyLowerDyn v with
    | Except.error e => Except.error e
    | Except.ok s => (lowered_avail_dyn rest).map (fun l => s :: l)

/-- `find_recipies` on a dynamic input list: the available set is built
eagerly before the catalog loop; a missing catalog key is a `KeyError`. -/
def find_recipies_dyn (db : List Recipe) (available_ingredients : List PyVal)
    (max_missing : ℤ) : Except PyErr (List String) :=
  match lowered_avail_dyn available_ingredients with
  | Except.error e => Except.error e
  | Except.ok availSet =>
    match find_core db availSet max_missing with
    | some l => Except.ok l
    | none => Except.error PyErr.keyError

/-- `calculate_recipe_macros` on a dynamic recipe name.  `recipe.lower()`
sits inside the generator condition
`r.get("name", "").lower() == recipe.lower()`, so it is evaluated once per
catalog recipe: on a non-string it raises `AttributeError` at the first
recipe, while on an empty catalog the generator is exhausted without ever
evaluating it and the call returns `None`. -/
def calculate_recipe_macros_dyn (db : List Recipe)
    (mdb : List (String × NutrientEntry)) (recipe : PyVal) :
    Except PyErr (Option Macros) :=
  match recipe with
  | PyVal.str s => Except.ok (calculate_recipe_macros db mdb s)
  | _ => if db.isEmpty then Except.ok none else Except.error PyErr.attributeError

/-! ### Spec-side definitions

These follow the wording of the specification (set difference of lowered
name sets, per-ingredient scaled contributions summed over the usable
ingredients), to be compared with the implementation above. -/

/-- Catalog well-formedness: every recipe object has a `"name"` key and
every ingredient object a `"name"` key, so no catalog access raises. -/
def CatalogWf (db : List Recipe) : Prop :=
  ∀ r ∈ db, r.name.isSome ∧ ∀ i ∈ r.ingredients, i.name.isSome

instance : DecidablePred CatalogWf := fun db =>
  List.decidableBAll _ db

/-- The set of lowered ingredient names of a list of strings. -/
def lowered_names (l : List String) : Finset String :=
  (l.map pyLower).toFinset

/-- The set of a recipe's lowered required ingredient names (duplicates
collapse; ingredients without a name are ignored here). -/
def required_finset (r : Recipe) : Finset String :=
  (r.ingredients.filterMap fun i => i.name.map pyLower).toFinset

/-- `|required \ available|`: how many required ingredients are missing. -/
def missing_count (available : List String) (r : Recipe) : ℕ :=
  (required_finset r \ lowered_names available).card

/-- The specified result of matching: the names, in catalog iteration
order, of the recipes missing at most `max_missing` ingredients. -/
def spec_find (db : List Recipe) (available : List String)
    (max_missing : ℤ) : List String :=
  (db.filter fun r => decide ((missing_count available r : ℤ) ≤ max_missing)).filterMap
    Recipe.name

/-- An ingredient the macro loop skips: missing/empty name, missing/zero
weight, or a missing or falsy (empty) nutrient-table entry. -/
def is_skipped (mdb : List (String × NutrientEntry)) (i : Ingredient) : Bool :=
  match i.name, i.weight_grams with
  | some n, some w =>
    decide (n = "") || decide (w = 0) ||
      (match List.lookup (pyLower n) mdb with
       | none => true
       | some e => decide (e = ([] : NutrientEntry)))
  | _, _ => true

/-- The spec's per-ingredient, per-macro contribution:
`nutrient_per_100g[key] * (weight_grams / 100.0)`, a missing macro field
counting as `0`. -/
def spec_contribution (mdb : List (String × NutrientEntry)) (i : Ingredient)
    (key : String) : ℚ :=
  entry_get ((List.lookup (pyLower (i.name.getD "")) mdb).getD []) key *
    (i.weight_grams.getD 0 / 100)

/-- The spec's macro totals before rounding: sum the contributions of each
non-skipped ingredient. -/
def spec_macro_total (mdb : List (String × NutrientEntry))
    (ings : List Ingredient) : Macros :=
  let usable := ings.filter fun i => !is_skipped mdb i
  ⟨(usable.map fun i => spec_contribution mdb i "protein").sum,
   (usable.map fun i => spec_contribution mdb i "carbs").sum,
   (usable.map fun i => spec_contribution mdb i "fat").sum,
   (usable.map fun i => spec_contribution mdb i "calories").sum⟩

/-- Rounding each total to one decimal place. -/
def macroRound (m : Macros) : Macros :=
  ⟨round1 m.protein, round1 m.carbs, round1 m.fat, round1 m.calories⟩

/-! ### Concrete data for witnesses

Small catalogs in the shape of `artefacts/recipes.json` /
`artefacts/macros.json`, including the spec's Omelette scenario. -/

/-- The spec scenario's nutrient entry for egg. -/
def eggEntry : NutrientEntry :=
  [("protein", 13), ("carbs", 1), ("fat", 11), ("calories", 155)]

/-- The spec scenario's recipe: `Omelette = [{name:"egg", weight_grams:150}]`. -/
def omeletteRecipe : Recipe := ⟨some "Omelette", [⟨some "egg", some 150⟩]⟩

/-- The spec scenario's nutrient table. -/
def eggTable : List (String × NutrientEntry) := [("egg", eggEntry)]

/-- A two-ingredient recipe, as in the spec's Salad scenario. -/
def saladRecipe : Recipe :=
  ⟨some "Salad", [⟨some "lettuce", some 100⟩, ⟨some "tomato", some 120⟩]⟩

/-- A nutrient table with a present-but-empty (falsy) entry for water. -/
def waterTable : List (String × NutrientEntry) :=
  [("water", []), ("egg", eggEntry)]

/-- A recipe whose every ingredient is skipped: unknown nutrient entry,
missing name, missing weight, empty name, falsy nutrient entry. -/
def mysteryRecipe : Recipe :=
  ⟨some "Mystery",
   [⟨some "unicorn", some 100⟩, ⟨none, some 50⟩, ⟨some "egg", none⟩,
    ⟨some "", some 30⟩, ⟨some "water", some 10⟩]⟩

/-- An Omelette variant with a nameless (skipped) second ingredient. -/
def omeletteJunkRecipe : Recipe :=
  ⟨some "Omelette", [⟨some "egg", some 150⟩, ⟨none, some 10⟩]⟩

/-- A recipe using the falsy water entry. -/
def soupRecipe : Recipe :=
  ⟨some "Soup", [⟨some "water", some 200⟩, ⟨some "egg", some 150⟩]⟩

/-- The spec's per-ingredient contribution as one `Macros` record. -/
def contribM (mdb : List (String × NutrientEntry)) (i : Ingredient) : Macros :=
  ⟨spec_contribution mdb i "protein", spec_contribution mdb i "carbs",
   spec_contribution mdb i "fat", spec_contribution mdb i "calories"⟩

theorem lowered_req_names_of_wf (l : List Ingredient)
    (h : ∀ i ∈ l, i.name.isSome) :
    lowered_req_names l = some (l.filterMap fun i => i.name.map pyLower) := by
  induction l with
  | nil => rfl
  | cons i rest ih =>
    have hi := h i (List.mem_cons_self i rest)
    obtain ⟨n, hn⟩ := Option.isSome_iff_exists.mp hi
    have hrest := ih fun j hj => h j (List.mem_cons_of_mem _ hj)
    simp [lowered_req_names, hn, hrest]

theorem dedup_toFinset (l : List String) : l.dedup.toFinset = l.toFinset := by
  ext x
  simp [List.mem_dedup]

theorem dedup_filter_length (ns A : List String) :
    ((ns.dedup.filter fun n => !decide (n ∈ A)).length) =
      (ns.toFinset \ A.toFinset).card := by
  have hnd : (ns.dedup.filter fun n => !decide (n ∈ A)).Nodup :=
    (List.nodup_dedup ns).filter _
  rw [← List.toFinset_card_of_nodup hnd, List.toFinset_filter,
    dedup_toFinset, Finset.sdiff_eq_filter]
  congr 1
  exact Finset.filter_congr fun x _ => by simp

theorem required_set_of_wf (r : Recipe) (h : ∀ i ∈ r.ingredients, i.name.isSome) :
    required_set r =
      some ((r.ingredients.filterMap fun i => i.name.map pyLower).dedup) := by
  simp [required_set, lowered_req_names_of_wf _ h]

theorem find_core_eq_spec (db : List Recipe) (A : List String) (mm : ℤ)
    (h : CatalogWf db) :
    find_core db A mm =
      some ((db.filter fun r =>
        decide (((required_finset r \ A.toFinset).card : ℤ) ≤ mm)).filterMap
          Recipe.name) := by
  induction db with
  | nil => rfl
  | cons r rest ih =>
    obtain ⟨hname, hings⟩ := h r (List.mem_cons_self r rest)
    have hrest := ih fun r' hr' => h r' (List.mem_cons_of_mem _ hr')
    obtain ⟨nm, hnm⟩ := Option.isSome_iff_exists.mp hname
    have hlen : (((r.ingredients.filterMap fun i => i.name.map pyLower).dedup.filter
        fun n => !decide (n ∈ A)).length : ℤ) =
        ((required_finset r \ A.toFinset).card : ℤ) :=
      Nat.cast_inj.mpr (dedup_filter_length _ A)
    by_cases hc : ((required_finset r \ A.toFinset).card : ℤ) ≤ mm
    · simp [find_core, required_set_of_wf r hings, hrest, hnm, hc,
        List.filter_cons, List.filterMap_cons]
      rw [hlen]
      exact hc
    · simp [find_core, required_set_of_wf r hings, hrest, hnm, hc,
        List.filter_cons, List.filterMap_cons]
      rw [hlen]
      exact not_le.mp hc

theorem find_recipies_eq_spec (db : List Recipe) (avail : List String) (mm : ℤ)
    (h : CatalogWf db) :
    find_recipies db avail mm = some (spec_find db avail mm) := by
  rw [find_recipies, find_core_eq_spec db _ mm h]
  rfl

theorem mem_spec_find {db : List Recipe} {avail : List String} {mm : ℤ}
    {R : String} :
    R ∈ spec_find db avail mm ↔
      ∃ r ∈ db, (missing_count avail r : ℤ) ≤ mm ∧ r.name = some R := by
  simp only [spec_find, List.mem_filterMap, List.mem_filter, decide_eq_true_eq]
  constructor
  · rintro ⟨r, ⟨h1, h2⟩, h3⟩
    exact ⟨r, h1, h2, h3⟩
  · rintro ⟨r, h1, h2, h3⟩
    exact ⟨r, ⟨h1, h2⟩, h3⟩

theorem missing_count_append_le (avail extras : List String) (r : Recipe) :
    missing_count (avail ++ extras) r ≤ missing_count avail r := by
  apply Finset.card_le_card
  apply Finset.sdiff_subset_sdiff (Finset.Subset.refl _)
  intro x hx
  simp only [lowered_names, List.mem_toFinset, List.map_append,
    List.mem_append] at hx ⊢
  exact Or.inl hx

theorem macroAdd_zero (m : Macros) : macroAdd zeroMacros m = m := by
  ext <;> simp [macroAdd, zeroMacros]

theorem macroAdd_assoc (a b c : Macros) :
    macroAdd (macroAdd a b) c = macroAdd a (macroAdd b c) := by
  ext <;> simp [macroAdd] <;> ring

theorem macro_step_eq (mdb : List (String × NutrientEntry)) (acc : Macros)
    (i : Ingredient) :
    macro_step mdb acc i =
      if is_skipped mdb i then acc else macroAdd acc (contribM mdb i) := by
  cases hn : i.name with
  | none => simp [macro_step, is_skipped, hn]
  | some n =>
    cases hw : i.weight_grams with
    | none => simp [macro_step, is_skipped, hn, hw]
    | some w =>
      by_cases h0 : n = "" ∨ w = 0
      · simp [macro_step, is_skipped, hn, hw, h0]
      · cases hl : List.lookup (pyLower n) mdb with
        | none =>
          simp [macro_step, is_skipped, hn, hw, h0, hl]
        | some e =>
          by_cases he : e = ([] : NutrientEntry)
          · simp [macro_step, is_skipped, hn, hw, h0, hl, he]
          · simp [macro_step, is_skipped, hn, hw, h0, hl, he, contribM,
              spec_contribution, entry_get]

theorem foldl_macro_step (mdb : List (String × NutrientEntry))
    (l : List Ingredient) (z : Macros) :
    l.foldl (macro_step mdb) z = macroAdd z (spec_macro_total mdb l) := by
  induction l generalizing z with
  | nil => ext <;> simp [spec_macro_total, macroAdd]
  | cons i rest ih =>
    by_cases hs : is_skipped mdb i
    · rw [List.foldl_cons, macro_step_eq, if_pos hs, ih]
      have ht : spec_macro_total mdb (i :: rest) = spec_macro_total mdb rest := by
        ext <;> simp [spec_macro_total, List.filter_cons, hs]
      rw [ht]
    · have hs' : is_skipped mdb i = false := by simpa using hs
      rw [List.foldl_cons, macro_step_eq, if_neg hs, ih, macroAdd_assoc]
      have ht : spec_macro_total mdb (i :: rest) =
          macroAdd (contribM mdb i) (spec_macro_total mdb rest) := by
        ext <;> simp [spec_macro_total, macroAdd, contribM, List.filter_cons, hs']
      rw [ht]

theorem calculate_found (db : List Recipe) (mdb : List (String × NutrientEntry))
    (name : String) (r : Recipe)
    (h : db.find? (fun x => pyLower (x.name.getD "") == pyLower name) = some r) :
    calculate_recipe_macros db mdb name =
      some (macroRound (spec_macro_total mdb r.ingredients)) := by
  simp only [calculate_recipe_macros, h, foldl_macro_step, macroAdd_zero,
    macroRound]

/-- Claim C1: on a well-formed catalog, `find_recipies` returns exactly the
names, in catalog iteration order, of those recipes whose set of lowercased
required ingredient names minus the set of lowercased available names has
size at most `max_missing`; duplicate ingredient entries collapse (Finset)
and unused available ingredients never disqualify a recipe. -/
theorem C1_find_recipies_matches_spec (db : List Recipe) (avail : List String)
    (mm : ℤ) (hwf : CatalogWf db) :
    find_recipies db avail mm = some (spec_find db avail mm) :=
  find_recipies_eq_spec db avail mm hwf

/-- Witness for C1 at a concrete catalog and input. -/
theorem C1_witness :
    CatalogWf [omeletteRecipe, saladRecipe] ∧
      find_recipies [omeletteRecipe, saladRecipe] ["egg"] 2 =
        some (spec_find [omeletteRecipe, saladRecipe] ["egg"] 2) :=
  ⟨by decide, C1_find_recipies_matches_spec _ _ _ (by decide)⟩

/-- Claim C2: whenever the (case-insensitive) catalog search finds a recipe,
`calculate_recipe_macros` returns the four totals obtained by summing the
per-100g values scaled by `weight_grams / 100` over the non-skipped
ingredients (missing macro fields contributing 0), each rounded to one
decimal place. -/
theorem C2_macros_of_found_recipe (db : List Recipe)
    (mdb : List (String × NutrientEntry)) (name : String) (r : Recipe)
    (h : db.find? (fun x => pyLower (x.name.getD "") == pyLower name) = some r) :
    calculate_recipe_macros db mdb name =
      some (macroRound (spec_macro_total mdb r.ingredients)) :=
  calculate_found db mdb name r h

/-- Witness for C2: the spec's Omelette scenario, with the exact output
`{protein:19.5, carbs:1.5, fat:16.5, calories:232.5}`. -/
theorem C2_witness :
    List.find? (fun x => pyLower (x.name.getD "") == pyLower "Omelette")
        [omeletteRecipe] = some omeletteRecipe ∧
      calculate_recipe_macros [omeletteRecipe] eggTable "Omelette" =
        some ⟨19.5, 1.5, 16.5, 232.5⟩ := by
  refine ⟨by decide, ?_⟩
  rw [C2_macros_of_found_recipe [omeletteRecipe] eggTable "Omelette"
    omeletteRecipe (by decide)]
  have hsk : is_skipped eggTable ⟨some "egg", some 150⟩ = false := by decide
  have hp : entry_get ((List.lookup (pyLower "egg") eggTable).getD [])
      "protein" = 13 := by decide
  have hc : entry_get ((List.lookup (pyLower "egg") eggTable).getD [])
      "carbs" = 1 := by decide
  have hf : entry_get ((List.lookup (pyLower "egg") eggTable).getD [])
      "fat" = 11 := by decide
  have hk : entry_get ((List.lookup (pyLower "egg") eggTable).getD [])
      "calories" = 155 := by decide
  have ht : spec_macro_total eggTable omeletteRecipe.ingredients =
      ⟨13 * (150 / 100) + 0, 1 * (150 / 100) + 0, 11 * (150 / 100) + 0,
       155 * (150 / 100) + 0⟩ := by
    ext <;>
      simp [spec_macro_total, omeletteRecipe, spec_contribution,
        List.filter_cons, hsk, hp, hc, hf, hk]
  rw [ht]
  norm_num [macroRound, round1, round_half_even, Macros.ext_iff]

/-- Claim C3: a recipe name matching no catalog entry case-insensitively
yields the `None` outcome, never a numeric result. -/
theorem C3_not_found_is_none (db : List Recipe)
    (mdb : List (String × NutrientEntry)) (name : String)
    (h : ∀ r ∈ db, pyLower (r.name.getD "") ≠ pyLower name) :
    calculate_recipe_macros db mdb name = none := by
  have hf : db.find? (fun x => pyLower (x.name.getD "") == pyLower name)
      = none := by
    rw [List.find?_eq_none]
    intro x hx
    simpa using h x hx
  simp [calculate_recipe_macros, hf]

/-- Witness for C3: `calculate_macros("totally-unknown-recipe")`. -/
theorem C3_witness :
    (∀ r ∈ [omeletteRecipe],
        pyLower (r.name.getD "") ≠ pyLower "totally-unknown-recipe") ∧
      calculate_recipe_macros [omeletteRecipe] eggTable
        "totally-unknown-recipe" = none :=
  ⟨by decide, C3_not_found_is_none _ _ _ (by decide)⟩

/-- Claim C4: a found recipe whose every ingredient is skipped yields the
numeric all-zero totals, not the not-found outcome. -/
theorem C4_all_skipped_yields_zero (db : List Recipe)
    (mdb : List (String × NutrientEntry)) (name : String) (r : Recipe)
    (hfind : db.find? (fun x => pyLower (x.name.getD "") == pyLower name)
      = some r)
    (hskip : ∀ i ∈ r.ingredients, is_skipped mdb i = true) :
    calculate_recipe_macros db mdb name = some ⟨0, 0, 0, 0⟩ ∧
      calculate_recipe_macros db mdb name ≠ none := by
  have hnil : r.ingredients.filter (fun i => !is_skipped mdb i) = [] := by
    rw [List.filter_eq_nil_iff]
    intro i hi
    simp [hskip i hi]
  have h1 : spec_macro_total mdb r.ingredients = zeroMacros := by
    ext <;> simp [spec_macro_total, hnil, zeroMacros]
  have h2 := calculate_found db mdb name r hfind
  rw [h1] at h2
  have h3 : macroRound zeroMacros = ⟨0, 0, 0, 0⟩ := by
    norm_num [macroRound, round1, round_half_even, zeroMacros]
  rw [h3] at h2
  exact ⟨h2, by simp [h2]⟩

/-- Witness for C4: a recipe whose five ingredients are all skipped
(unknown nutrient entry, missing name, missing weight, empty name, falsy
nutrient entry). -/
theorem C4_witness :
    List.find? (fun x => pyLower (x.name.getD "") == pyLower "mystery")
        [mysteryRecipe] = some mysteryRecipe ∧
      (∀ i ∈ mysteryRecipe.ingredients, is_skipped waterTable i = true) ∧
      calculate_recipe_macros [mysteryRecipe] waterTable "mystery" =
        some ⟨0, 0, 0, 0⟩ :=
  ⟨by decide, by decide,
    (C4_all_skipped_yields_zero [mysteryRecipe] waterTable "mystery"
      mysteryRecipe (by decide) (by decide)).1⟩

/-- Claim C5: per-ingredient data problems only remove that ingredient:
the totals of a found recipe equal the totals over its non-skipped
ingredients, and the calculation always produces a numeric result. -/
theorem C5_skipped_ingredients_never_abort (db : List Recipe)
    (mdb : List (String × NutrientEntry)) (name : String) (r : Recipe)
    (hfind : db.find? (fun x => pyLower (x.name.getD "") == pyLower name)
      = some r) :
    (calculate_recipe_macros db mdb name).isSome = true ∧
      calculate_recipe_macros db mdb name =
        some (macroRound (spec_macro_total mdb
          (r.ingredients.filter fun i => !is_skipped mdb i))) := by
  have h2 := calculate_found db mdb name r hfind
  have hidem : spec_macro_total mdb
      (r.ingredients.filter fun i => !is_skipped mdb i) =
      spec_macro_total mdb r.ingredients := by
    ext <;> simp [spec_macro_total, List.filter_filter]
  rw [hidem]
  exact ⟨by simp [h2], h2⟩

/-- Witness for C5: an Omelette with a nameless second ingredient. -/
theorem C5_witness :
    List.find? (fun x => pyLower (x.name.getD "") == pyLower "omelette")
        [omeletteJunkRecipe] = some omeletteJunkRecipe ∧
      (calculate_recipe_macros [omeletteJunkRecipe] eggTable
        "omelette").isSome = true :=
  ⟨by decide,
    (C5_skipped_ingredients_never_abort [omeletteJunkRecipe] eggTable
      "omelette" omeletteJunkRecipe (by decide)).1⟩

/-- Claim C7: matching is monotone in `max_missing`: a recipe name in the
result at bound `k` is in the result at any larger bound `k'`. -/
theorem C7_matching_monotone (db : List Recipe) (avail : List String)
    (k k' : ℤ) (R : String) (l l' : List String) (hwf : CatalogWf db)
    (hk : k < k') (hl : find_recipies db avail k = some l)
    (hl' : find_recipies db avail k' = some l') (hR : R ∈ l) : R ∈ l' := by
  rw [find_recipies_eq_spec db avail k hwf] at hl
  rw [find_recipies_eq_spec db avail k' hwf] at hl'
  obtain rfl := Option.some.inj hl
  obtain rfl := Option.some.inj hl'
  obtain ⟨r, hr, hcount, hname⟩ := mem_spec_find.mp hR
  exact mem_spec_find.mpr ⟨r, hr, le_trans hcount (le_of_lt hk), hname⟩

/-- Witness for C7: the Salad scenario at bounds 1 and 2. -/
theorem C7_witness :
    CatalogWf [saladRecipe] ∧ (1 : ℤ) < 2 ∧
      find_recipies [saladRecipe] ["lettuce"] 1 = some ["Salad"] ∧
      find_recipies [saladRecipe] ["lettuce"] 2 = some ["Salad"] ∧
      "Salad" ∈ ["Salad"] :=
  ⟨by decide, by decide, by decide, by decide,
    C7_matching_monotone [saladRecipe] ["lettuce"] 1 2 "Salad" ["Salad"]
      ["Salad"] (by decide) (by decide) (by decide) (by decide) (by decide)⟩

/-- Claim C8: appending extra available ingredients never removes a
previously matching recipe from the result. -/
theorem C8_extra_ingredients_harmless (db : List Recipe)
    (avail extras : List String) (mm : ℤ) (R : String) (l l' : List String)
    (hwf : CatalogWf db) (hl : find_recipies db avail mm = some l)
    (hl' : find_recipies db (avail ++ extras) mm = some l') (hR : R ∈ l) :
    R ∈ l' := by
  rw [find_recipies_eq_spec db avail mm hwf] at hl
  rw [find_recipies_eq_spec db (avail ++ extras) mm hwf] at hl'
  obtain rfl := Option.some.inj hl
  obtain rfl := Option.some.inj hl'
  obtain ⟨r, hr, hcount, hname⟩ := mem_spec_find.mp hR
  refine mem_spec_find.mpr ⟨r, hr, le_trans ?_ hcount, hname⟩
  exact_mod_cast Nat.cast_le.mpr (missing_count_append_le avail extras r)

/-- Witness for C8: a full Salad match survives an appended extra. -/
theorem C8_witness :
    CatalogWf [saladRecipe] ∧
      find_recipies [saladRecipe] ["lettuce", "tomato"] 0 = some ["Salad"] ∧
      find_recipies [saladRecipe] (["lettuce", "tomato"] ++ ["cheese"]) 0 =
        some ["Salad"] ∧
      "Salad" ∈ ["Salad"] :=
  ⟨by decide, by decide, by decide,
    C8_extra_ingredients_harmless [saladRecipe] ["lettuce", "tomato"]
      ["cheese"] 0 "Salad" ["Salad"] ["Salad"] (by decide) (by decide)
      (by decide) (by decide)⟩

/-- Claim C9: both operations are invariant under case changes of their
inputs: inputs equal after lowercasing give identical results. -/
theorem C9_case_insensitive (db : List Recipe)
    (mdb : List (String × NutrientEntry)) (a a' : List String)
    (n n' : String) (mm : ℤ) (ha : a.map pyLower = a'.map pyLower)
    (hn : pyLower n = pyLower n') :
    find_recipies db a mm = find_recipies db a' mm ∧
      calculate_recipe_macros db mdb n = calculate_recipe_macros db mdb n' := by
  constructor
  · rw [find_recipies, find_recipies, ha]
  · have hpred : (fun x : Recipe => pyLower (x.name.getD "") == pyLower n) =
        (fun x : Recipe => pyLower (x.name.getD "") == pyLower n') := by
      funext x
      rw [hn]
    simp only [calculate_recipe_macros, hpred]

/-- Witness for C9: upper-cased inputs give the same results. -/
theorem C9_witness :
    ["EGG"].map pyLower = ["egg"].map pyLower ∧
      pyLower "OMELETTE" = pyLower "omelette" ∧
      (find_recipies [omeletteRecipe] ["EGG"] 2 =
          find_recipies [omeletteRecipe] ["egg"] 2 ∧
        calculate_recipe_macros [omeletteRecipe] eggTable "OMELETTE" =
          calculate_recipe_macros [omeletteRecipe] eggTable "omelette") :=
  ⟨by decide, by decide,
    C9_case_insensitive [omeletteRecipe] eggTable ["EGG"] ["egg"]
      "OMELETTE" "omelette" 2 (by decide) (by decide)⟩

theorem lookup_filter_self (k : String) (mdb : List (String × NutrientEntry)) :
    List.lookup k (mdb.filter fun p => !(p.1 == k)) = none := by
  induction mdb with
  | nil => rfl
  | cons p rest ih =>
    by_cases hp : p.1 = k
    · simp [List.filter_cons, hp, ih]
    · simp only [List.filter_cons]
      rw [if_pos (by simp [hp])]
      rw [List.lookup_cons]
      rw [show (k == p.1) = false from beq_eq_false_iff_ne.mpr (Ne.symm hp)]
      simpa using ih

theorem lookup_filter_ne (k key : String) (mdb : List (String × NutrientEntry))
    (hne : key ≠ k) :
    List.lookup key (mdb.filter fun p => !(p.1 == k)) = List.lookup key mdb := by
  induction mdb with
  | nil => rfl
  | cons p rest ih =>
    by_cases hp : p.1 = k
    · have hkp : key ≠ p.1 := fun h => hne (h ▸ hp)
      simp only [List.filter_cons]
      rw [if_neg (by simp [hp]), List.lookup_cons]
      rw [show (key == p.1) = false from beq_eq_false_iff_ne.mpr hkp]
      simpa using ih
    · simp only [List.filter_cons]
      rw [if_pos (by simp [hp]), List.lookup_cons, List.lookup_cons]
      by_cases hkp : key = p.1
      · rw [show (key == p.1) = true from beq_iff_eq.mpr hkp]
      · rw [show (key == p.1) = false from beq_eq_false_iff_ne.mpr hkp]
        simpa using ih

/-- Claim C10: a present-but-falsy (empty) nutrient-table entry behaves
exactly as if the table had no entry for that key: removing all bindings of
the key leaves every result of `calculate_recipe_macros` unchanged. -/
theorem C10_empty_entry_like_absent (db : List Recipe)
    (mdb : List (String × NutrientEntry)) (k name : String)
    (h : List.lookup k mdb = some ([] : NutrientEntry)) :
    calculate_recipe_macros db mdb name =
      calculate_recipe_macros db (mdb.filter fun p => !(p.1 == k)) name := by
  have hstep : macro_step mdb = macro_step (mdb.filter fun p => !(p.1 == k)) := by
    funext acc i
    cases hn : i.name with
    | none => simp [macro_step, hn]
    | some n =>
      cases hw : i.weight_grams with
      | none => simp [macro_step, hn, hw]
      | some w =>
        simp only [macro_step, hn, hw]
        by_cases hk : pyLower n = k
        · rw [hk, h, lookup_filter_self]
          simp
        · rw [lookup_filter_ne k (pyLower n) mdb hk]
  simp only [calculate_recipe_macros, hstep]

/-- Witness for C10: the water entry of `waterTable` is present but empty. -/
theorem C10_witness :
    List.lookup "water" waterTable = some ([] : NutrientEntry) ∧
      calculate_recipe_macros [soupRecipe] waterTable "Soup" =
        calculate_recipe_macros [soupRecipe]
          (waterTable.filter fun p => !(p.1 == "water")) "Soup" :=
  ⟨by decide,
    C10_empty_entry_like_absent [soupRecipe] waterTable "water" "Soup"
      (by decide)⟩

/-- Claim C6 counterexample: on a list containing a non-string element,
`find_recipies` raises `AttributeError` (from `.lower()` while building the
available set, before the catalog is even consulted), so malformed lists
with wrong element types crash rather than degrade to no match. -/
theorem C6_counterexample :
    find_recipies_dyn [] [PyVal.int 1] 2 =
      Except.error PyErr.attributeError := by
  rfl

theorem lowered_avail_dyn_str (l : List String) :
    lowered_avail_dyn (l.map PyVal.str) = Except.ok (l.map pyLower) := by
  induction l with
  | nil => rfl
  | cons x rest ih =>
    simp [lowered_avail_dyn, pyLowerDyn, ih, List.map_cons, Except.map]

theorem pyLower_eq_empty_iff {s : String} : pyLower s = "" ↔ s = "" := by
  constructor
  · intro h
    have hd : s.data.map Char.toLower = [] := congrArg String.data h
    have hnil : s.data = [] := List.map_eq_nil_iff.mp hd
    cases s
    simp_all
  · intro h
    rw [h]
    rfl

theorem required_mem_ne_empty (r : Recipe)
    (hne : ∀ i ∈ r.ingredients, i.name ≠ some "") (x : String)
    (hx : x ∈ required_finset r) : x ≠ "" := by
  simp only [required_finset, List.mem_toFinset, List.mem_filterMap] at hx
  obtain ⟨i, hi, hmap⟩ := hx
  obtain ⟨n, hn, rfl⟩ := Option.map_eq_some'.mp hmap
  intro hempty
  exact hne i hi (hn ▸ congrArg some (pyLower_eq_empty_iff.mp hempty ▸ rfl))

/-- Claim C6 amended: on string input lists — including empty lists and
empty strings — `find_recipies` (over a well-formed catalog) and
`calculate_recipe_macros` never crash; an empty-string available
ingredient is legal and (when no catalog ingredient is named `""`) never
matches anything, leaving the result unchanged.  Wrong element types are
NOT tolerated: see the counterexample. -/
theorem C6_amended_strings_never_crash (db : List Recipe)
    (mdb : List (String × NutrientEntry)) (avail : List String) (mm : ℤ)
    (name : String) (hwf : CatalogWf db)
    (hne : ∀ r ∈ db, ∀ i ∈ r.ingredients, i.name ≠ some "") :
    (find_recipies_dyn db (avail.map PyVal.str) mm).isOk = true ∧
      calculate_recipe_macros_dyn db mdb (PyVal.str name) =
        Except.ok (calculate_recipe_macros db mdb name) ∧
      find_recipies db ("" :: avail) mm = find_recipies db avail mm := by
  refine ⟨?_, rfl, ?_⟩
  · simp only [find_recipies_dyn, lowered_avail_dyn_str,
      find_core_eq_spec db (avail.map pyLower) mm hwf]
    rfl
  · have hmc : ∀ r ∈ db, missing_count ("" :: avail) r = missing_count avail r := by
      intro r hr
      unfold missing_count
      congr 1
      ext x
      simp only [Finset.mem_sdiff, lowered_names, List.map_cons,
        List.mem_toFinset, List.mem_cons]
      constructor
      · rintro ⟨hx1, hx2⟩
        exact ⟨hx1, fun hm => hx2 (Or.inr hm)⟩
      · rintro ⟨hx1, hx2⟩
        refine ⟨hx1, ?_⟩
        rintro (hx0 | hm)
        · exact required_mem_ne_empty r (hne r hr) x hx1 (by simpa using hx0)
        · exact hx2 hm
    rw [find_recipies_eq_spec db ("" :: avail) mm hwf,
      find_recipies_eq_spec db avail mm hwf]
    congr 1
    unfold spec_find
    congr 1
    apply List.filter_congr
    intro r hr
    rw [hmc r hr]

/-- Witness for C6 (amended) at a concrete catalog and inputs. -/
theorem C6_witness :
    CatalogWf [omeletteRecipe] ∧
      (∀ r ∈ [omeletteRecipe], ∀ i ∈ r.ingredients, i.name ≠ some "") ∧
      ((find_recipies_dyn [omeletteRecipe] (["EGG"].map PyVal.str) 2).isOk
          = true ∧
        calculate_recipe_macros_dyn [omeletteRecipe] eggTable
            (PyVal.str "omelette") =
          Except.ok (calculate_recipe_macros [omeletteRecipe] eggTable
            "omelette") ∧
        find_recipies [omeletteRecipe] ("" :: ["EGG"]) 2 =
          find_recipies [omeletteRecipe] ["EGG"] 2) :=
  ⟨by decide, by decide,
    C6_amended_strings_never_crash [omeletteRecipe] eggTable ["EGG"] 2
      "omelette" (by decide) (by decide)⟩
